import Mathlib

/-!
# PythonMonkey: the shared-memory table, the job queue and teardown

A shallow embedding of `src/modules/pythonmonkey/pythonmonkey.cc` and `src/JobQueue.cc`.

Pointers are natural numbers: a `PyType *` (host handle), a
`JS::PersistentRooted<JS::Value> *` (guest handle) and a rooted `JS::Value` are all `Nat`,
and pointer comparison is equality of the numbers.

`std::unordered_map` is embedded as the list of its entries in iteration order.  The
standard leaves that order unspecified, so the theorems about the scan are stated for every
list, hence for every order.  `erase(it)` keeps the relative order of the remaining entries
and returns the iterator to the next one.
-/

namespace PythonMonkey

/-! ## Data model -/

/-- One entry of `PyTypeToGCThing`: the `PyType *` key and its vector of
`JS::PersistentRooted<JS::Value> *`. -/
abbrev Entry := Nat × List Nat

/-- The map `PyTypeToGCThing`, as its entries in iteration order. -/
abbrev Table := List Entry

/-- The global table together with the heap of live `JS::PersistentRooted<JS::Value>` objects:
each live object is its address paired with the value it roots. -/
structure State where
  PyTypeToGCThing : Table
  rooted : List (Nat × Nat)
deriving DecidableEq, Repr

/-- The state at module load: an empty table and no rooted value. -/
def State.empty : State := ⟨[], []⟩

/-- The status argument of a GC callback. -/
inductive JSGCStatus where
  | JSGC_BEGIN
  | JSGC_END
deriving DecidableEq, Repr

/-- What the scan reads from the host runtime for a `PyType *`:
`PyObject_GC_IsFinalized(p->getPyObject())` and `p->getPyObject()->ob_refcnt`. -/
structure PyView where
  isFinalized : Nat → Bool
  ob_refcnt : Nat → Nat

/-- The condition of line 53:
`PyObject_GC_IsFinalized(...) || ...->ob_refcnt == 1`. -/
def collectible (py : PyView) (pyType : Nat) : Bool :=
  py.isFinalized pyType || py.ob_refcnt pyType == 1

/-! ## `memoizePyTypeAndGCThing` -/

/-- The lookup `PyTypeToGCThing.find(pyType)`: the vector of the entry with that key, or
`none` for `end()`. -/
def find : Table → Nat → Option (List Nat)
  | [], _ => none
  | e :: t, pyType => if e.1 = pyType then some e.2 else find t pyType

/-- The update `pyIt->second.push_back(RootedGCThing)` on the entry that `find` returned. -/
def pushBack : Table → Nat → Nat → Table
  | [], _, _ => []
  | e :: t, pyType, RootedGCThing =>
    if e.1 = pyType then (e.1, e.2 ++ [RootedGCThing]) :: t
    else e :: pushBack t pyType RootedGCThing

/-- The function `memoizePyTypeAndGCThing(pyType, GCThing)`.  The argument `RootedGCThing` is the
address that `new JS::PersistentRooted<JS::Value>(cx, GCThing)` returned.  Where `insert` puts a
new entry in the iteration order is unspecified; here it goes last, and `Reachable` below
allows any reordering. -/
def memoizePyTypeAndGCThing (s : State) (pyType GCThing RootedGCThing : Nat) : State :=
  let rooted := s.rooted ++ [(RootedGCThing, GCThing)]
  match find s.PyTypeToGCThing pyType with
  | none => ⟨s.PyTypeToGCThing ++ [(pyType, [RootedGCThing])], rooted⟩
  | some _ => ⟨pushBack s.PyTypeToGCThing pyType RootedGCThing, rooted⟩

/-- Calling `memoizePyTypeAndGCThing(pyType, GCThing)` once per address of the list, in a row. -/
def memoizeRepeatedly (s : State) (pyType GCThing : Nat) : List Nat → State
  | [] => s
  | p :: ps => memoizeRepeatedly (memoizePyTypeAndGCThing s pyType GCThing p) pyType GCThing ps

/-! ## `handleSharedPythonMonkeyMemory` -/

/-- The inner loop of lines 55-61 over the entries other than `pyIt`: does one of them
contain `rval` (`std::find(...) != end()`)? -/
def foundInOthers (others : Table) (rval : Nat) : Bool :=
  others.any (fun inner => inner.2.contains rval)

/-- The `while` loop of lines 50-72.  `kept` are the entries already visited and left in
the map, `e :: rest` the entries from `pyIt` on, `deleted` the `delete rval` calls made so
far.  The other entries of the map at that moment are `kept ++ rest`. -/
def scanLoop (py : PyView) : Table → Table → List Nat → Table × List Nat
  | kept, [], deleted => (kept, deleted)
  | kept, e :: rest, deleted =>
    if collectible py e.1 then
      scanLoop py kept rest
        (deleted ++ e.2.filter (fun rval => !foundInOthers (kept ++ rest) rval))
    else
      scanLoop py (kept ++ [e]) rest deleted

/-- The statement `delete rval`: the object at that address leaves the heap. -/
def deleteRooted (rooted : List (Nat × Nat)) (rval : Nat) : List (Nat × Nat) :=
  rooted.filter (fun r => r.1 != rval)

/-- The function `handleSharedPythonMonkeyMemory(cx, status, reason, data)`: the new state and
the sequence of `delete rval` calls it made. -/
def handleSharedPythonMonkeyMemory (py : PyView) (status : JSGCStatus) (s : State) :
    State × List Nat :=
  match status with
  | JSGCStatus.JSGC_BEGIN =>
    let r := scanLoop py [] s.PyTypeToGCThing []
    (⟨r.1, r.2.foldl deleteRooted s.rooted⟩, r.2)
  | JSGCStatus.JSGC_END => (s, [])

/-! ## `JobQueue` -/

/-- Modelled from the spec: the class `PyEventLoop` (declared in `include/PyEventLoop.hh`, which
is not among the sources) is a reference to a host event loop that may be absent;
`initialized()` tells whether a loop was resolved. -/
structure PyEventLoop where
  loop : Option Nat
deriving DecidableEq, Repr

/-- The test `loop.initialized()`. -/
def PyEventLoop.initialized (l : PyEventLoop) : Bool := l.loop.isSome

/-- The calls into the two runtimes that the job queue makes, in the order made. -/
inductive Effect where
  /-- The call `JS::JobQueueMayNotBeEmpty(cx)`. -/
  | jobQueueMayNotBeEmpty
  /-- The call `loop.enqueue(callback)` on that loop. -/
  | loopEnqueue (loop : PyEventLoop) (callback : Nat)
  /-- The call `PyGILState_Ensure()`. -/
  | gilEnsure
  /-- The call `PyGILState_Release(gstate)`. -/
  | gilRelease
  /-- The call `PyThread_start_new_thread(&sendJobToMainLoop, pyFunc)`. -/
  | startNewThread (pyFunc : Nat)
deriving DecidableEq, Repr

/-- The method `JobQueue::enqueuePromiseJob`.  `pyTypeFactory` turns the job into the Python
callback, `getRunningLoop` is what `PyEventLoop::getRunningLoop()` returns. -/
def enqueuePromiseJob (pyTypeFactory : Nat → Nat) (getRunningLoop : PyEventLoop) (job : Nat) :
    Bool × List Effect :=
  let callback := pyTypeFactory job
  let loop := getRunningLoop
  if !loop.initialized then (false, [])
  else (true, [Effect.jobQueueMayNotBeEmpty, Effect.loopEnqueue loop callback])

/-- The dispatcher as `JobQueue::empty` could see it: the running loop and the guest-originated
jobs handed to it that have not run yet. -/
structure JobQueue where
  getRunningLoop : PyEventLoop
  pending : List Nat
deriving DecidableEq, Repr

/-- The method `JobQueue::empty`: its body is a single `throw std::logic_error(...)`. -/
def JobQueue.empty (_q : JobQueue) : Except String Bool :=
  Except.error "JobQueue::empty is not implemented\n"

/-- The function `sendJobToMainLoop(pyFunc)`, the body of the spawned thread.  `getMainLoop` is
what `PyEventLoop::getMainLoop()` returns. -/
def sendJobToMainLoop (getMainLoop : PyEventLoop) (pyFunc : Nat) : Bool × List Effect :=
  let loop := getMainLoop
  if !loop.initialized then (false, [Effect.gilEnsure, Effect.gilRelease])
  else (true, [Effect.gilEnsure, Effect.loopEnqueue loop pyFunc, Effect.gilRelease])

/-- The method `JobQueue::dispatchToEventLoop(closure, dispatchable)`, on the calling helper
thread.  `PyCFunction_New` wraps the pair into the Python callable `pyFunc`; the thread is
started with a `void` entry point, so the result of `sendJobToMainLoop` goes nowhere.
`getMainLoop` is the main loop at the time of the call; the body does not read it. -/
def dispatchToEventLoop (PyCFunction_New : Nat → Nat → Nat) (_getMainLoop : PyEventLoop)
    (closure dispatchable : Nat) : Bool × List Effect :=
  let pyFunc := PyCFunction_New closure dispatchable
  (true, [Effect.gilEnsure, Effect.startNewThread pyFunc, Effect.gilRelease])

/-! ## Teardown -/

/-- The three teardown effects of `cleanup`. -/
inductive Teardown where
  /-- The guest context was destroyed by `JS_DestroyContext(cx)`. -/
  | destroyContext
  /-- The engine was shut down by `JS_ShutDown()`. -/
  | shutDown
  /-- The global root was released by `delete global`. -/
  | deleteGlobal
deriving DecidableEq, Repr

/-- The functions that can be registered as exit handlers. -/
inductive ExitHandler where
  | cleanup
deriving DecidableEq, Repr

/-- What a global pointer (`cx`, `global`) refers to: nothing, an object that exists, or an
object that has been destroyed while the pointer kept its value. -/
inductive Ptr where
  | null
  | live
  | dangling
deriving DecidableEq, Repr

/-- The guest runtime as the module sees it: the global `cx`, whether the engine is
initialized (`JS_Init` done, `JS_ShutDown` not), the global `global`, the teardown effects
performed so far, the handlers registered with `Py_AtExit` and whether the GC callback is
installed. -/
structure Runtime where
  cx : Ptr
  engineUp : Bool
  global : Ptr
  calls : List Teardown
  atExit : List ExitHandler
  gcCallback : Bool
deriving DecidableEq, Repr

/-- The call of `cleanup` whose behaviour is undefined in the state it is made in. -/
inductive Fault where
  /-- The call `JS_DestroyContext(cx)` on a null or already destroyed context. -/
  | destroyContext
  /-- The call `JS_ShutDown()` while the engine is not initialized. -/
  | shutDown
  /-- The statement `delete global` on an already deleted object. -/
  | deleteGlobal
deriving DecidableEq, Repr

/-- The call `JS_DestroyContext(cx)`: it destroys a live context and leaves `cx` pointing at
it; on any other `cx` the behaviour is undefined. -/
def JS_DestroyContext (r : Runtime) : Except Fault Runtime :=
  match r.cx with
  | Ptr.live =>
    Except.ok { r with cx := Ptr.dangling, calls := r.calls ++ [Teardown.destroyContext] }
  | _ => Except.error Fault.destroyContext

/-- The call `JS_ShutDown()`: it shuts an initialized engine down; otherwise the behaviour is
undefined. -/
def JS_ShutDown (r : Runtime) : Except Fault Runtime :=
  if r.engineUp then
    Except.ok { r with engineUp := false, calls := r.calls ++ [Teardown.shutDown] }
  else Except.error Fault.shutDown

/-- The statement `delete global`: it releases a live object and leaves `global` pointing at
it, releases nothing on a null pointer, and is undefined on an already deleted object. -/
def deleteGlobal (r : Runtime) : Except Fault Runtime :=
  match r.global with
  | Ptr.live =>
    Except.ok { r with global := Ptr.dangling, calls := r.calls ++ [Teardown.deleteGlobal] }
  | Ptr.null => Except.ok r
  | Ptr.dangling => Except.error Fault.deleteGlobal

/-- The function `cleanup()`: the three statements in order, with no test before any of them;
neither `cx` nor `global` is reset. -/
def cleanup (r : Runtime) : Except Fault Runtime := do
  let r1 ← JS_DestroyContext r
  let r2 ← JS_ShutDown r1
  deleteGlobal r2

/-- The function `PyInit_pythonmonkey()`, as far as the runtime goes: the three arguments are
the results of `JS_Init()`, `JS_NewContext(...)` (non-null) and `JS::InitSelfHostedCode(cx)`.
The result is whether a module was created (`NULL` otherwise), and the runtime. -/
def PyInit_pythonmonkey (JS_Init JS_NewContext InitSelfHostedCode : Bool) (r : Runtime) :
    Bool × Runtime :=
  if !JS_Init then (false, r)
  else
    let r1 := { r with engineUp := true }
    if !JS_NewContext then (false, { r1 with cx := Ptr.null })
    else
      let r2 := { r1 with cx := Ptr.live }
      if !InitSelfHostedCode then (false, r2)
      else
        (true, { r2 with
          global := Ptr.live
          atExit := r2.atExit ++ [ExitHandler.cleanup]
          gcCallback := true })

/-- The runtime before the module is loaded. -/
def Runtime.unloaded : Runtime := ⟨Ptr.null, false, Ptr.null, [], [], false⟩

/-! ## Observations on states -/

/-- A guest handle is live when its `PersistentRooted` object is on the heap. -/
def live (s : State) (rval : Nat) : Prop := rval ∈ s.rooted.map Prod.fst

/-- A guest handle is listed when some entry of the table contains it. -/
def listed (t : Table) (rval : Nat) : Prop := ∃ e ∈ t, rval ∈ e.2

/-- A guest value is pinned when some live handle roots it. -/
def pinned (s : State) (GCThing : Nat) : Prop := GCThing ∈ s.rooted.map Prod.snd

instance (s : State) (rval : Nat) : Decidable (live s rval) := by
  unfold live; infer_instance

instance (t : Table) (rval : Nat) : Decidable (listed t rval) := by
  unfold listed; infer_instance

instance (s : State) (v : Nat) : Decidable (pinned s v) := by
  unfold pinned; infer_instance

/-- The handles the scan deletes, told from the table alone: `rval` is in a collectible entry
among `rest`, in no entry of `kept`, and in no entry of `rest` that is not collectible. -/
def releasable (py : PyView) (kept rest : Table) (rval : Nat) : Bool :=
  rest.any (fun e => collectible py e.1 && e.2.contains rval)
    && !foundInOthers kept rval
    && !rest.any (fun e => !collectible py e.1 && e.2.contains rval)

/-- The states the program can be in: from the empty table by `memoizePyTypeAndGCThing` with the
address of a freshly allocated object (one that is not live), by GC callbacks under any
observation of the host objects, and by a rehash of the map (any reordering of its entries). -/
inductive Reachable : State → Prop where
  | init : Reachable State.empty
  | memoize (s : State) (pyType GCThing RootedGCThing : Nat) :
      Reachable s → ¬ live s RootedGCThing →
      Reachable (memoizePyTypeAndGCThing s pyType GCThing RootedGCThing)
  | gc (s : State) (py : PyView) (status : JSGCStatus) :
      Reachable s → Reachable (handleSharedPythonMonkeyMemory py status s).1
  | rehash (s : State) (t : Table) :
      Reachable s → t.Perm s.PyTypeToGCThing → Reachable ⟨t, s.rooted⟩

/-! ## Concrete inputs -/

/-- An observation under which exactly the host object `h` has refcount 1; nothing is
finalized and every other refcount is 2. -/
def onlyCollectible (h : Nat) : PyView := ⟨fun _ => false, fun k => if k = h then 1 else 2⟩

/-- An observation under which every host object has refcount 1. -/
def allCollectible : PyView := ⟨fun _ => false, fun _ => 1⟩

/-- Host object 3 already keeps value 7 pinned, through the handle at address 30. -/
def thirdHolder : State := memoizePyTypeAndGCThing State.empty 3 7 30

/-- The scenario of two host objects 1 and 2 registered for value 7 (handles at 10 and 20),
followed by a scan with only 1 collectible and a scan with only 2 collectible. -/
def afterBothScans (s : State) : State :=
  (handleSharedPythonMonkeyMemory (onlyCollectible 2) JSGCStatus.JSGC_BEGIN
    (handleSharedPythonMonkeyMemory (onlyCollectible 1) JSGCStatus.JSGC_BEGIN
      (memoizePyTypeAndGCThing (memoizePyTypeAndGCThing s 1 7 10) 2 7 20)).1).1

/-- The runtime after a successful `PyInit_pythonmonkey`. -/
def Runtime.loaded : Runtime := (PyInit_pythonmonkey true true true Runtime.unloaded).2

/-! ## The scan: the table and the deleted handles -/

theorem foundInOthers_iff (t : Table) (rval : Nat) :
    foundInOthers t rval = true ↔ listed t rval := by
  simp [foundInOthers, listed, List.any_eq_true]

theorem foundInOthers_append (t u : Table) (rval : Nat) :
    foundInOthers (t ++ u) rval = (foundInOthers t rval || foundInOthers u rval) := by
  simp [foundInOthers, List.any_append]

theorem foundInOthers_split (py : PyView) (t : Table) (rval : Nat) :
    foundInOthers t rval
      = (t.any (fun e => collectible py e.1 && e.2.contains rval)
          || t.any (fun e => !collectible py e.1 && e.2.contains rval)) := by
  induction t with
  | nil => rfl
  | cons e t ih =>
    have h : foundInOthers (e :: t) rval = (e.2.contains rval || foundInOthers t rval) := by
      simp [foundInOthers]
    rw [h, ih]
    simp only [List.any_cons]
    cases collectible py e.1 <;> cases e.2.contains rval <;> simp

theorem scanLoop_fst (py : PyView) (rest : Table) :
    ∀ kept deleted : _, (scanLoop py kept rest deleted).1
      = kept ++ rest.filter (fun e => !collectible py e.1) := by
  induction rest with
  | nil => intro kept deleted; simp [scanLoop]
  | cons e rest ih =>
    intro kept deleted
    by_cases hc : collectible py e.1 = true
    · simp [scanLoop, hc, ih]
    · simp [scanLoop, hc, ih]

theorem releasable_cons_keep (py : PyView) (kept rest : Table) (e : Entry) (rval : Nat)
    (hc : collectible py e.1 = false) :
    releasable py (kept ++ [e]) rest rval = releasable py kept (e :: rest) rval := by
  simp only [releasable, foundInOthers_append, List.any_cons, hc]
  have h : foundInOthers [e] rval = e.2.contains rval := by simp [foundInOthers]
  rw [h]
  cases e.2.contains rval <;> cases foundInOthers kept rval <;> simp

theorem mem_filter_notFound (kept rest : Table) (e : Entry) (rval : Nat) :
    rval ∈ e.2.filter (fun r => !foundInOthers (kept ++ rest) r)
      ↔ (e.2.contains rval = true ∧ foundInOthers kept rval = false
          ∧ foundInOthers rest rval = false) := by
  simp [List.mem_filter, foundInOthers_append]

theorem scanLoop_mem (py : PyView) (rval : Nat) (rest : Table) :
    ∀ kept deleted : _, rval ∈ (scanLoop py kept rest deleted).2
      ↔ (rval ∈ deleted ∨ releasable py kept rest rval = true) := by
  induction rest with
  | nil => intro kept deleted; simp [scanLoop, releasable]
  | cons e rest ih =>
    intro kept deleted
    by_cases hc : collectible py e.1 = true
    · simp only [scanLoop, hc, if_true]
      rw [ih, List.mem_append, mem_filter_notFound, foundInOthers_split py rest]
      simp only [releasable, List.any_cons, hc]
      cases e.2.contains rval <;> cases foundInOthers kept rval
        <;> cases rest.any (fun e => collectible py e.1 && e.2.contains rval)
        <;> cases rest.any (fun e => !collectible py e.1 && e.2.contains rval)
        <;> simp
    · have hc2 : collectible py e.1 = false := by simpa using hc
      simp only [scanLoop, hc2]
      rw [← releasable_cons_keep py kept rest e rval hc2]
      simpa using ih (kept ++ [e]) deleted

theorem count_filter_notFound (kept rest : Table) (e : Entry) (rval : Nat) (hnd : e.2.Nodup) :
    (e.2.filter (fun r => !foundInOthers (kept ++ rest) r)).count rval
      = (e.2.contains rval && !foundInOthers kept rval && !foundInOthers rest rval).toNat := by
  have hm := mem_filter_notFound kept rest e rval
  have hn : (e.2.filter (fun r => !foundInOthers (kept ++ rest) r)).Nodup := hnd.filter _
  by_cases h : rval ∈ e.2.filter (fun r => !foundInOthers (kept ++ rest) r)
  · rw [List.count_eq_one_of_mem hn h]
    obtain ⟨h1, h2, h3⟩ := hm.mp h
    rw [h1, h2, h3]; rfl
  · rw [List.count_eq_zero.mpr h]
    rw [hm] at h
    cases h1 : e.2.contains rval <;> cases h2 : foundInOthers kept rval
      <;> cases h3 : foundInOthers rest rval <;> simp_all

theorem scanLoop_count (py : PyView) (rval : Nat) (rest : Table) :
    (∀ e ∈ rest, e.2.Nodup) →
    ∀ kept deleted : _, (scanLoop py kept rest deleted).2.count rval
      = deleted.count rval + (releasable py kept rest rval).toNat := by
  induction rest with
  | nil => intro _ kept deleted; simp [scanLoop, releasable]
  | cons e rest ih =>
    intro hnd kept deleted
    have hnd1 : e.2.Nodup := hnd e (List.mem_cons_self _ _)
    have hnd2 : ∀ x ∈ rest, x.2.Nodup := fun x hx => hnd x (List.mem_cons_of_mem _ hx)
    by_cases hc : collectible py e.1 = true
    · simp only [scanLoop, hc, if_true]
      rw [ih hnd2, List.count_append, count_filter_notFound kept rest e rval hnd1,
        foundInOthers_split py rest]
      simp only [releasable, List.any_cons, hc]
      cases e.2.contains rval <;> cases foundInOthers kept rval
        <;> cases rest.any (fun e => collectible py e.1 && e.2.contains rval)
        <;> cases rest.any (fun e => !collectible py e.1 && e.2.contains rval)
        <;> simp
    · have hc2 : collectible py e.1 = false := by simpa using hc
      simp only [scanLoop, hc2]
      rw [← releasable_cons_keep py kept rest e rval hc2]
      simpa using ih hnd2 (kept ++ [e]) deleted

theorem releasable_nil_iff (py : PyView) (t : Table) (rval : Nat) :
    releasable py [] t rval = true
      ↔ ((∃ e ∈ t, collectible py e.1 = true ∧ rval ∈ e.2)
          ∧ ¬ ∃ e ∈ t, collectible py e.1 = false ∧ rval ∈ e.2) := by
  simp [releasable, foundInOthers, List.any_eq_true]

/-! ## The heap after the scan -/

theorem foldl_deleteRooted (deleted : List Nat) :
    ∀ rooted : List (Nat × Nat),
      deleted.foldl deleteRooted rooted = rooted.filter (fun r => !deleted.contains r.1) := by
  induction deleted with
  | nil => intro rooted; simp
  | cons d ds ih =>
    intro rooted
    simp only [List.foldl_cons, ih, deleteRooted, List.filter_filter]
    apply List.filter_congr
    intro r _
    by_cases h : r.1 = d
    · simp [h]
    · have h2 : ¬ d = r.1 := fun h3 => h h3.symm
      simp [h, h2, List.contains_cons]

theorem mem_rooted_after (py : PyView) (s : State) (r : Nat × Nat) :
    r ∈ (handleSharedPythonMonkeyMemory py JSGCStatus.JSGC_BEGIN s).1.rooted
      ↔ (r ∈ s.rooted
          ∧ r.1 ∉ (handleSharedPythonMonkeyMemory py JSGCStatus.JSGC_BEGIN s).2) := by
  simp [handleSharedPythonMonkeyMemory, foldl_deleteRooted, List.mem_filter]

theorem live_after (py : PyView) (s : State) (rval : Nat) :
    live (handleSharedPythonMonkeyMemory py JSGCStatus.JSGC_BEGIN s).1 rval
      ↔ (live s rval
          ∧ rval ∉ (handleSharedPythonMonkeyMemory py JSGCStatus.JSGC_BEGIN s).2) := by
  unfold live
  simp only [List.mem_map]
  constructor
  · rintro ⟨r, hr, rfl⟩
    rw [mem_rooted_after] at hr
    exact ⟨⟨r, hr.1, rfl⟩, hr.2⟩
  · rintro ⟨⟨r, hr, rfl⟩, h2⟩
    exact ⟨r, (mem_rooted_after py s r).mpr ⟨hr, h2⟩, rfl⟩

theorem deleted_iff (py : PyView) (s : State) (rval : Nat) :
    rval ∈ (handleSharedPythonMonkeyMemory py JSGCStatus.JSGC_BEGIN s).2
      ↔ ((∃ e ∈ s.PyTypeToGCThing, collectible py e.1 = true ∧ rval ∈ e.2)
          ∧ ¬ ∃ e ∈ s.PyTypeToGCThing, collectible py e.1 = false ∧ rval ∈ e.2) := by
  simp only [handleSharedPythonMonkeyMemory]
  rw [scanLoop_mem, releasable_nil_iff]
  simp

theorem table_after (py : PyView) (s : State) :
    (handleSharedPythonMonkeyMemory py JSGCStatus.JSGC_BEGIN s).1.PyTypeToGCThing
      = s.PyTypeToGCThing.filter (fun e => !collectible py e.1) := by
  simp [handleSharedPythonMonkeyMemory, scanLoop_fst]

/-! ## `find` and `pushBack` -/

theorem find_pushBack_same (t : Table) (pyType p : Nat) (v : List Nat)
    (h : find t pyType = some v) : find (pushBack t pyType p) pyType = some (v ++ [p]) := by
  induction t with
  | nil => simp [find] at h
  | cons e t ih =>
    by_cases hk : e.1 = pyType
    · simp only [find, hk, if_true, Option.some.injEq] at h
      simp [pushBack, find, hk, h]
    · simp only [find, hk, if_false] at h
      simp [pushBack, find, hk, ih h]

theorem find_pushBack_other (t : Table) (pyType p other : Nat) (hne : other ≠ pyType) :
    find (pushBack t pyType p) other = find t other := by
  induction t with
  | nil => simp [pushBack]
  | cons e t ih =>
    by_cases hk : e.1 = pyType
    · have hne2 : ¬ pyType = other := fun h2 => hne h2.symm
      simp [pushBack, find, hk, hne2]
    · by_cases hk3 : e.1 = other
      · simp [pushBack, find, hk, hk3, hne]
      · simp [pushBack, find, hk, hk3, ih]

theorem find_append (t : Table) (e : Entry) (k : Nat) :
    find (t ++ [e]) k = (find t k).orElse (fun _ => if e.1 = k then some e.2 else none) := by
  induction t with
  | nil => simp [find]
  | cons a t ih =>
    by_cases hk : a.1 = k
    · simp [find, hk]
    · simp [find, hk, ih]

theorem find_eq_none_iff (t : Table) (k : Nat) : find t k = none ↔ k ∉ t.map Prod.fst := by
  induction t with
  | nil => simp [find]
  | cons a t ih =>
    by_cases hk : a.1 = k
    · simp [find, hk]
    · have hk2 : ¬ k = a.1 := fun h => hk h.symm
      simp [find, hk, hk2, ih]

theorem find_memoize_same (s : State) (pyType GCThing p : Nat) :
    find (memoizePyTypeAndGCThing s pyType GCThing p).PyTypeToGCThing pyType
      = some ((find s.PyTypeToGCThing pyType).getD [] ++ [p]) := by
  unfold memoizePyTypeAndGCThing
  cases h : find s.PyTypeToGCThing pyType with
  | none => simp [find_append, h]
  | some v => simp [find_pushBack_same _ _ _ _ h]

theorem find_memoize_other (s : State) (pyType GCThing p other : Nat) (hne : other ≠ pyType) :
    find (memoizePyTypeAndGCThing s pyType GCThing p).PyTypeToGCThing other
      = find s.PyTypeToGCThing other := by
  have hne2 : ¬ pyType = other := fun h => hne h.symm
  unfold memoizePyTypeAndGCThing
  cases h : find s.PyTypeToGCThing pyType with
  | none =>
    simp only [find_append, hne2, if_false]
    cases find s.PyTypeToGCThing other <;> rfl
  | some v => simp [find_pushBack_other _ _ _ _ hne]

theorem rooted_memoize (s : State) (pyType GCThing p : Nat) :
    (memoizePyTypeAndGCThing s pyType GCThing p).rooted = s.rooted ++ [(p, GCThing)] := by
  unfold memoizePyTypeAndGCThing
  cases find s.PyTypeToGCThing pyType <;> rfl

theorem memoizeRepeatedly_spec (pyType GCThing : Nat) (ps : List Nat) :
    ∀ s : State,
      (find (memoizeRepeatedly s pyType GCThing ps).PyTypeToGCThing pyType).getD []
          = (find s.PyTypeToGCThing pyType).getD [] ++ ps
      ∧ (∀ other, other ≠ pyType →
          find (memoizeRepeatedly s pyType GCThing ps).PyTypeToGCThing other
            = find s.PyTypeToGCThing other)
      ∧ (memoizeRepeatedly s pyType GCThing ps).rooted
          = s.rooted ++ ps.map (fun p => (p, GCThing)) := by
  induction ps with
  | nil => intro s; simp [memoizeRepeatedly]
  | cons p ps ih =>
    intro s
    obtain ⟨h1, h2, h3⟩ := ih (memoizePyTypeAndGCThing s pyType GCThing p)
    refine ⟨?_, ?_, ?_⟩
    · simp only [memoizeRepeatedly]
      rw [h1, find_memoize_same]
      simp
    · intro other hne
      simp only [memoizeRepeatedly]
      rw [h2 other hne, find_memoize_other _ _ _ _ _ hne]
    · simp only [memoizeRepeatedly]
      rw [h3, rooted_memoize]
      simp

/-! ## Live handles and listed handles -/

theorem listed_cons (e : Entry) (t : Table) (rval : Nat) :
    listed (e :: t) rval ↔ (rval ∈ e.2 ∨ listed t rval) := by
  simp [listed]

theorem listed_pushBack (t : Table) (pyType p rval : Nat) (h : find t pyType ≠ none) :
    listed (pushBack t pyType p) rval ↔ (listed t rval ∨ rval = p) := by
  induction t with
  | nil => simp [find] at h
  | cons e t ih =>
    by_cases hk : e.1 = pyType
    · simp only [pushBack, hk, if_true]
      rw [listed_cons, listed_cons]
      simp only [List.mem_append, List.mem_singleton]
      tauto
    · simp only [find, hk, if_false] at h
      simp only [pushBack, hk, if_false]
      rw [listed_cons, listed_cons, ih h]
      tauto

theorem listed_append_new (t : Table) (pyType p rval : Nat) :
    listed (t ++ [(pyType, [p])]) rval ↔ (listed t rval ∨ rval = p) := by
  simp only [listed, List.mem_append, List.mem_singleton]
  constructor
  · rintro ⟨e, he | he, hm⟩
    · exact Or.inl ⟨e, he, hm⟩
    · subst he; simp at hm; exact Or.inr hm
  · rintro (⟨e, he, hm⟩ | h)
    · exact ⟨e, Or.inl he, hm⟩
    · exact ⟨(pyType, [p]), Or.inr rfl, by simp [h]⟩

theorem listed_memoize (s : State) (pyType GCThing p rval : Nat) :
    listed (memoizePyTypeAndGCThing s pyType GCThing p).PyTypeToGCThing rval
      ↔ (listed s.PyTypeToGCThing rval ∨ rval = p) := by
  unfold memoizePyTypeAndGCThing
  cases h : find s.PyTypeToGCThing pyType with
  | none => exact listed_append_new _ _ _ _
  | some v => exact listed_pushBack _ _ _ _ (by simp [h])

theorem live_memoize (s : State) (pyType GCThing p rval : Nat) :
    live (memoizePyTypeAndGCThing s pyType GCThing p) rval ↔ (live s rval ∨ rval = p) := by
  simp only [live, rooted_memoize, List.map_append, List.mem_append, List.map_cons,
    List.map_nil, List.mem_singleton]

theorem listed_after (py : PyView) (s : State) (rval : Nat) :
    listed (handleSharedPythonMonkeyMemory py JSGCStatus.JSGC_BEGIN s).1.PyTypeToGCThing rval
      ↔ ∃ e ∈ s.PyTypeToGCThing, collectible py e.1 = false ∧ rval ∈ e.2 := by
  rw [table_after]
  simp only [listed, List.mem_filter, Bool.not_eq_true', and_assoc]

theorem live_iff_listed_step (py : PyView) (s : State)
    (h : ∀ rval, live s rval ↔ listed s.PyTypeToGCThing rval) (rval : Nat) :
    live (handleSharedPythonMonkeyMemory py JSGCStatus.JSGC_BEGIN s).1 rval
      ↔ listed (handleSharedPythonMonkeyMemory py JSGCStatus.JSGC_BEGIN s).1.PyTypeToGCThing
          rval := by
  rw [live_after, deleted_iff, listed_after, h rval]
  constructor
  · rintro ⟨⟨e, he, hm⟩, hnot⟩
    by_contra hno
    apply hnot
    refine ⟨⟨e, he, ?_, hm⟩, hno⟩
    cases hc : collectible py e.1
    · exact absurd ⟨e, he, hc, hm⟩ hno
    · rfl
  · rintro ⟨e, he, hc, hm⟩
    exact ⟨⟨e, he, hm⟩, fun hx => hx.2 ⟨e, he, hc, hm⟩⟩

theorem reachable_live_iff_listed (s : State) (hr : Reachable s) :
    ∀ rval, live s rval ↔ listed s.PyTypeToGCThing rval := by
  induction hr with
  | init => intro rval; simp [live, listed, State.empty]
  | memoize s pyType GCThing p _ _ ih =>
    intro rval
    rw [live_memoize, listed_memoize, ih rval]
  | gc s py status _ ih =>
    cases status with
    | JSGC_BEGIN => exact live_iff_listed_step py s ih
    | JSGC_END => exact ih
  | rehash s t _ hp ih =>
    intro rval
    rw [show live ⟨t, s.rooted⟩ rval ↔ live s rval from Iff.rfl, ih rval]
    simp only [listed]
    constructor
    · rintro ⟨e, he, hm⟩; exact ⟨e, hp.mem_iff.mpr he, hm⟩
    · rintro ⟨e, he, hm⟩; exact ⟨e, hp.mem_iff.mp he, hm⟩

/-! ## The shared-memory table: main results -/

/-- C1: when the collection-begin scan runs over the table in any visiting order and an entry
`h` is collectible (finalized, or refcount exactly 1), a guest handle `g` listed by `h` is
deleted by the scan if and only if no other entry whose host object is not collectible lists
`g`; a deleted handle is no longer live afterwards. -/
theorem released_iff_no_other_live_entry (py : PyView) (s : State) (order : Table)
    (h : Entry) (g : Nat)
    (horder : order.Perm s.PyTypeToGCThing)
    (hh : h ∈ s.PyTypeToGCThing)
    (hc : py.isFinalized h.1 = true ∨ py.ob_refcnt h.1 = 1)
    (hg : g ∈ h.2) :
    (g ∈ (handleSharedPythonMonkeyMemory py JSGCStatus.JSGC_BEGIN ⟨order, s.rooted⟩).2
      ↔ ¬ ∃ e ∈ s.PyTypeToGCThing, e ≠ h ∧ collectible py e.1 = false ∧ g ∈ e.2)
    ∧ (g ∈ (handleSharedPythonMonkeyMemory py JSGCStatus.JSGC_BEGIN ⟨order, s.rooted⟩).2
      → ¬ live (handleSharedPythonMonkeyMemory py JSGCStatus.JSGC_BEGIN ⟨order, s.rooted⟩).1 g) := by
  have hcol : collectible py h.1 = true := by
    rcases hc with hc | hc <;> simp [collectible, hc]
  refine ⟨?_, ?_⟩
  · rw [deleted_iff]
    constructor
    · rintro ⟨_, hnot⟩ ⟨e, he, _, hce, hge⟩
      exact hnot ⟨e, horder.mem_iff.mpr he, hce, hge⟩
    · intro hnot
      refine ⟨⟨h, horder.mem_iff.mpr hh, hcol, hg⟩, ?_⟩
      rintro ⟨e, he, hce, hge⟩
      refine hnot ⟨e, horder.mem_iff.mp he, ?_, hce, hge⟩
      rintro rfl
      rw [hcol] at hce
      exact Bool.noConfusion hce
  · intro hdel hlive
    exact ((live_after py ⟨order, s.rooted⟩ g).mp hlive).2 hdel

/-- C2: after the collection-begin scan the table is exactly the entries whose host object was
neither finalized nor at refcount 1, each with its sequence of guest handles unchanged and in
the same relative order; every collectible entry is gone. -/
theorem table_after_scan (py : PyView) (s : State) :
    (handleSharedPythonMonkeyMemory py JSGCStatus.JSGC_BEGIN s).1.PyTypeToGCThing
        = s.PyTypeToGCThing.filter (fun e => !(py.isFinalized e.1 || py.ob_refcnt e.1 == 1))
    ∧ ∀ e : Entry,
        e ∈ (handleSharedPythonMonkeyMemory py JSGCStatus.JSGC_BEGIN s).1.PyTypeToGCThing
          ↔ (e ∈ s.PyTypeToGCThing ∧ ¬ (py.isFinalized e.1 = true ∨ py.ob_refcnt e.1 = 1)) := by
  have h := table_after py s
  simp only [collectible] at h
  refine ⟨h, ?_⟩
  intro e
  rw [h]
  simp [List.mem_filter]

/-- C3: `memoizePyTypeAndGCThing` is total; afterwards the entry of `h` is its previous sequence
(empty when `h` had no entry) followed by the one new handle, the new handle roots `g`, and
every other entry is unchanged.  Registering `(h, g)` once per address of `ps` in a row
appends all of `ps` to the entry of `h`, each of them rooting `g`: duplicates are stored. -/
theorem memoize_appends (s : State) (h g : Nat) :
    (∀ p : Nat,
      find (memoizePyTypeAndGCThing s h g p).PyTypeToGCThing h
          = some ((find s.PyTypeToGCThing h).getD [] ++ [p])
      ∧ (∀ other, other ≠ h →
          find (memoizePyTypeAndGCThing s h g p).PyTypeToGCThing other
            = find s.PyTypeToGCThing other)
      ∧ (memoizePyTypeAndGCThing s h g p).rooted = s.rooted ++ [(p, g)])
    ∧ (∀ ps : List Nat,
      (find (memoizeRepeatedly s h g ps).PyTypeToGCThing h).getD []
          = (find s.PyTypeToGCThing h).getD [] ++ ps
      ∧ (∀ other, other ≠ h →
          find (memoizeRepeatedly s h g ps).PyTypeToGCThing other = find s.PyTypeToGCThing other)
      ∧ (memoizeRepeatedly s h g ps).rooted = s.rooted ++ ps.map (fun p => (p, g))) :=
  ⟨fun p => ⟨find_memoize_same s h g p, fun other hne => find_memoize_other s h g p other hne,
      rooted_memoize s h g p⟩,
    fun ps => memoizeRepeatedly_spec h g ps s⟩

/-- C4: in every reachable state a guest handle is live (created and not yet deleted) if and
only if some entry of the table lists it. -/
theorem reachable_handle_live_iff_listed (s : State) (hr : Reachable s) (g : Nat) :
    live s g ↔ listed s.PyTypeToGCThing g :=
  reachable_live_iff_listed s hr g

/-- C6: when every entry lists a handle at most once, one collection-begin scan deletes each
guest handle at most once, however many collectible entries share it; a handle that is listed
and whose listing entries are all collectible is deleted exactly once. -/
theorem deleted_at_most_once (py : PyView) (s : State) (g : Nat)
    (hnd : ∀ e ∈ s.PyTypeToGCThing, e.2.Nodup) :
    (handleSharedPythonMonkeyMemory py JSGCStatus.JSGC_BEGIN s).2.count g ≤ 1
    ∧ (listed s.PyTypeToGCThing g →
        (∀ e ∈ s.PyTypeToGCThing, g ∈ e.2 → collectible py e.1 = true) →
        (handleSharedPythonMonkeyMemory py JSGCStatus.JSGC_BEGIN s).2.count g = 1) := by
  have hcount : (handleSharedPythonMonkeyMemory py JSGCStatus.JSGC_BEGIN s).2.count g
      = (releasable py [] s.PyTypeToGCThing g).toNat := by
    simp only [handleSharedPythonMonkeyMemory]
    rw [scanLoop_count py g s.PyTypeToGCThing hnd [] []]
    simp
  refine ⟨?_, ?_⟩
  · rw [hcount]; exact Bool.toNat_le _
  · rintro ⟨e, he, hge⟩ hall
    have hrel : releasable py [] s.PyTypeToGCThing g = true := by
      rw [releasable_nil_iff]
      refine ⟨⟨e, he, hall e he hge, hge⟩, ?_⟩
      rintro ⟨e2, he2, hc2, hg2⟩
      rw [hall e2 he2 hg2] at hc2
      exact Bool.noConfusion hc2
    rw [hcount, hrel]; rfl

/-! ## Two host objects sharing a guest value -/

theorem memoize_of_find_none (s : State) (pyType GCThing p : Nat)
    (h : find s.PyTypeToGCThing pyType = none) :
    memoizePyTypeAndGCThing s pyType GCThing p
      = ⟨s.PyTypeToGCThing ++ [(pyType, [p])], s.rooted ++ [(p, GCThing)]⟩ := by
  simp [memoizePyTypeAndGCThing, h]

theorem find_filter_none (t : Table) (q : Entry → Bool) (k : Nat) (h : find t k = none) :
    find (t.filter q) k = none := by
  rw [find_eq_none_iff] at h ⊢
  intro hk
  apply h
  obtain ⟨e, he, rfl⟩ := List.mem_map.mp hk
  exact List.mem_map.mpr ⟨e, (List.mem_filter.mp he).1, rfl⟩

theorem listed_filter (t : Table) (q : Entry → Bool) (rval : Nat)
    (h : listed (t.filter q) rval) : listed t rval := by
  obtain ⟨e, he, hm⟩ := h
  exact ⟨e, (List.mem_filter.mp he).1, hm⟩

theorem pinned_iff (s : State) (GCThing : Nat) :
    pinned s GCThing ↔ ∃ p, (p, GCThing) ∈ s.rooted := by
  simp [pinned]

theorem live_of_mem_rooted (s : State) (p v : Nat) (h : (p, v) ∈ s.rooted) : live s p :=
  List.mem_map.mpr ⟨(p, v), h, rfl⟩

/-- C5 (amended): from a reachable state whose table has neither `A` nor `B`, after
`register(A, X)` and `register(B, X)` a scan in which `A` is collectible and `B` is not removes
`A`, keeps `B` with its one handle, and leaves `X` pinned; a following scan in which `B` is
collectible removes `B` and leaves both new handles deleted.  Then `X` is pinned by no handle
provided no handle rooted `X` in the starting state; in general `X` is pinned exactly when an
entry still in the table lists a live handle rooting it. -/
theorem shared_value_stays_pinned (s : State) (A B X p1 p2 : Nat) (py1 py2 : PyView)
    (hr : Reachable s) (hAB : A ≠ B)
    (hA : find s.PyTypeToGCThing A = none) (hB : find s.PyTypeToGCThing B = none)
    (hp1 : ¬ live s p1) (hp2 : ¬ live (memoizePyTypeAndGCThing s A X p1) p2)
    (hA1 : collectible py1 A = true) (hB1 : collectible py1 B = false)
    (hB2 : collectible py2 B = true) :
    let s1 := memoizePyTypeAndGCThing (memoizePyTypeAndGCThing s A X p1) B X p2
    let s2 := (handleSharedPythonMonkeyMemory py1 JSGCStatus.JSGC_BEGIN s1).1
    let s3 := (handleSharedPythonMonkeyMemory py2 JSGCStatus.JSGC_BEGIN s2).1
    find s2.PyTypeToGCThing A = none ∧ find s2.PyTypeToGCThing B = some [p2] ∧ pinned s2 X
    ∧ find s3.PyTypeToGCThing B = none ∧ ¬ live s3 p1 ∧ ¬ live s3 p2
    ∧ (¬ pinned s X → ¬ pinned s3 X)
    ∧ (pinned s3 X ↔ ∃ e ∈ s3.PyTypeToGCThing, ∃ p ∈ e.2, (p, X) ∈ s3.rooted) := by
  intro s1 s2 s3
  have hsA := memoize_of_find_none s A X p1 hA
  have hB' : find (s.PyTypeToGCThing ++ [(A, [p1])]) B = none := by
    rw [find_append, hB]; simp [hAB]
  have hs1 : s1 = ⟨s.PyTypeToGCThing ++ [(A, [p1])] ++ [(B, [p2])],
      s.rooted ++ [(p1, X)] ++ [(p2, X)]⟩ := by
    show memoizePyTypeAndGCThing (memoizePyTypeAndGCThing s A X p1) B X p2 = _
    rw [hsA]
    exact memoize_of_find_none _ B X p2 hB'
  have ht2 : s2.PyTypeToGCThing
      = s.PyTypeToGCThing.filter (fun e => !collectible py1 e.1) ++ [(B, [p2])] := by
    show (handleSharedPythonMonkeyMemory py1 JSGCStatus.JSGC_BEGIN s1).1.PyTypeToGCThing = _
    rw [table_after, hs1]
    simp [List.filter_append, hA1, hB1]
  have ht3 : s3.PyTypeToGCThing
      = (s.PyTypeToGCThing.filter (fun e => !collectible py1 e.1)).filter
          (fun e => !collectible py2 e.1) := by
    show (handleSharedPythonMonkeyMemory py2 JSGCStatus.JSGC_BEGIN s2).1.PyTypeToGCThing = _
    rw [table_after, ht2]
    simp [List.filter_append, hB2]
  have hr1 : Reachable s1 :=
    Reachable.memoize _ B X p2 (Reachable.memoize s A X p1 hr hp1) hp2
  have hr2 : Reachable s2 := Reachable.gc s1 py1 JSGCStatus.JSGC_BEGIN hr1
  have hr3 : Reachable s3 := Reachable.gc s2 py2 JSGCStatus.JSGC_BEGIN hr2
  have hp2s : ¬ live s p2 := fun h => hp2 ((live_memoize s A X p1 p2).mpr (Or.inl h))
  have hnl : ∀ p, ¬ live s p → ¬ live s3 p := by
    intro p hp hl
    have h3 := (reachable_live_iff_listed s3 hr3 p).mp hl
    rw [ht3] at h3
    exact hp ((reachable_live_iff_listed s hr p).mpr (listed_filter _ _ _ (listed_filter _ _ _ h3)))
  have hfrom : ∀ r, r ∈ s3.rooted → r ∈ s1.rooted := fun r h =>
    ((mem_rooted_after py1 s1 r).mp ((mem_rooted_after py2 s2 r).mp h).1).1
  refine ⟨?_, ?_, ?_, ?_, hnl p1 hp1, hnl p2 hp2s, ?_, ?_⟩
  · rw [ht2, find_append, find_filter_none _ _ _ hA]
    simp [hAB.symm]
  · rw [ht2, find_append, find_filter_none _ _ _ hB]
    simp
  · refine (pinned_iff s2 X).mpr ⟨p2, (mem_rooted_after py1 s1 (p2, X)).mpr ⟨?_, ?_⟩⟩
    · rw [hs1]; simp
    · rw [deleted_iff]
      rintro ⟨_, hnot⟩
      exact hnot ⟨(B, [p2]), by rw [hs1]; simp, hB1, by simp⟩
  · rw [ht3]
    exact find_filter_none _ _ _ (find_filter_none _ _ _ hB)
  · intro hnp hp3
    obtain ⟨p, hp⟩ := (pinned_iff s3 X).mp hp3
    have h1 := hfrom _ hp
    rw [hs1] at h1
    simp only [List.mem_append, List.mem_singleton, Prod.mk.injEq] at h1
    rcases h1 with (h | h) | h
    · exact hnp ((pinned_iff s X).mpr ⟨p, h⟩)
    · exact hnl p1 hp1 (h.1 ▸ live_of_mem_rooted s3 p X hp)
    · exact hnl p2 hp2s (h.1 ▸ live_of_mem_rooted s3 p X hp)
  · constructor
    · intro hp3
      obtain ⟨p, hp⟩ := (pinned_iff s3 X).mp hp3
      obtain ⟨e, he, hm⟩ :=
        (reachable_live_iff_listed s3 hr3 p).mp (live_of_mem_rooted s3 p X hp)
      exact ⟨e, he, p, hm, hp⟩
    · rintro ⟨e, _, p, _, hp⟩
      exact (pinned_iff s3 X).mpr ⟨p, hp⟩

/-- C5 as stated fails: when host object 3 already pins value 7, registering 1 and 2 for 7 and
collecting first 1 and then 2 removes both, yet 7 is still pinned (by the handle of 3). -/
theorem still_pinned_by_third_holder :
    Reachable thirdHolder
    ∧ find thirdHolder.PyTypeToGCThing 1 = none ∧ find thirdHolder.PyTypeToGCThing 2 = none
    ∧ ¬ live thirdHolder 10 ∧ ¬ live (memoizePyTypeAndGCThing thirdHolder 1 7 10) 20
    ∧ collectible (onlyCollectible 1) 1 = true ∧ collectible (onlyCollectible 1) 2 = false
    ∧ collectible (onlyCollectible 2) 2 = true
    ∧ find (afterBothScans thirdHolder).PyTypeToGCThing 1 = none
    ∧ find (afterBothScans thirdHolder).PyTypeToGCThing 2 = none
    ∧ pinned (afterBothScans thirdHolder) 7 :=
  ⟨Reachable.memoize State.empty 3 7 30 Reachable.init (by decide),
    by decide, by decide, by decide, by decide, by decide, by decide, by decide, by decide,
    by decide, by decide⟩

/-- The scenario of C5 from the empty table: the hypotheses hold and value 7 ends unpinned. -/
theorem shared_value_stays_pinned_witness :
    find (afterBothScans State.empty).PyTypeToGCThing 2 = none
    ∧ ¬ pinned (afterBothScans State.empty) 7 :=
  have h := shared_value_stays_pinned State.empty 1 2 7 10 20 (onlyCollectible 1)
    (onlyCollectible 2) Reachable.init (by decide) (by decide) (by decide) (by decide)
    (by decide) (by decide) (by decide) (by decide)
  ⟨h.2.2.2.1, h.2.2.2.2.2.2.1 (by decide)⟩

/-- Witness for C1: entries 1 and 2 share handle 10, only 1 is collectible, and the scan visits
2 before 1. -/
theorem released_iff_no_other_live_entry_witness :
    (10 ∈ (handleSharedPythonMonkeyMemory (onlyCollectible 1) JSGCStatus.JSGC_BEGIN
              ⟨[(2, [10]), (1, [10])], [(10, 7)]⟩).2
        ↔ ¬ ∃ e ∈ [((1 : Nat), [(10 : Nat)]), (2, [10])],
              e ≠ (1, [10]) ∧ collectible (onlyCollectible 1) e.1 = false ∧ 10 ∈ e.2)
    ∧ (10 ∈ (handleSharedPythonMonkeyMemory (onlyCollectible 1) JSGCStatus.JSGC_BEGIN
              ⟨[(2, [10]), (1, [10])], [(10, 7)]⟩).2
        → ¬ live (handleSharedPythonMonkeyMemory (onlyCollectible 1) JSGCStatus.JSGC_BEGIN
              ⟨[(2, [10]), (1, [10])], [(10, 7)]⟩).1 10) :=
  released_iff_no_other_live_entry (onlyCollectible 1) ⟨[(1, [10]), (2, [10])], [(10, 7)]⟩
    [(2, [10]), (1, [10])] (1, [10]) 10 (List.Perm.swap _ _ _) (by decide) (Or.inr rfl)
    (by decide)

/-- Witness for C3: registering host object 1 for value 7 three times in a row. -/
theorem memoize_appends_witness :
    (find (memoizeRepeatedly State.empty 1 7 [10, 11, 12]).PyTypeToGCThing 1).getD []
        = [10, 11, 12]
    ∧ (memoizeRepeatedly State.empty 1 7 [10, 11, 12]).rooted = [(10, 7), (11, 7), (12, 7)] :=
  have h := (memoize_appends State.empty 1 7).2 [10, 11, 12]
  ⟨h.1, h.2.2⟩

/-- Witness for C4: after one registration the new handle is live and listed. -/
theorem reachable_handle_live_iff_listed_witness :
    live thirdHolder 30 ↔ listed thirdHolder.PyTypeToGCThing 30 :=
  reachable_handle_live_iff_listed thirdHolder
    (Reachable.memoize State.empty 3 7 30 Reachable.init (by decide)) 30

/-- Witness for C6: entries 1 and 2 share handle 10 and both are collectible in the same
cycle; the handle is deleted exactly once. -/
theorem deleted_at_most_once_witness :
    (handleSharedPythonMonkeyMemory allCollectible JSGCStatus.JSGC_BEGIN
        ⟨[(1, [10]), (2, [10])], [(10, 7)]⟩).2.count 10 = 1 :=
  (deleted_at_most_once allCollectible ⟨[(1, [10]), (2, [10])], [(10, 7)]⟩ 10
    (by decide)).2 (by decide) (by decide)

/-! ## The job queue -/

/-- C7: `enqueuePromiseJob` returns false exactly when the running loop is not initialized, and
then makes no call at all; otherwise it returns true after calling `JobQueueMayNotBeEmpty` and
then enqueuing the converted job, once, on the running loop. -/
theorem enqueuePromiseJob_spec (pyTypeFactory : Nat → Nat) (loop : PyEventLoop) (job : Nat) :
    ((enqueuePromiseJob pyTypeFactory loop job).1 = false ↔ loop.initialized = false)
    ∧ enqueuePromiseJob pyTypeFactory loop job
        = if loop.initialized = true then
            (true, [Effect.jobQueueMayNotBeEmpty, Effect.loopEnqueue loop (pyTypeFactory job)])
          else (false, []) := by
  unfold enqueuePromiseJob
  cases h : loop.initialized <;> simp [h]

/-- C8 as stated fails: with no main loop at all, `dispatchToEventLoop` returns true. -/
theorem dispatch_without_main_loop :
    PyEventLoop.initialized ⟨none⟩ = false
    ∧ (dispatchToEventLoop (fun cx d => cx + d) ⟨none⟩ 1 2).1 = true
    ∧ (sendJobToMainLoop ⟨none⟩ 3).1 = false :=
  ⟨rfl, rfl, rfl⟩

/-- C8 (amended): `dispatchToEventLoop` returns true whatever the main loop is, after starting
one thread for the wrapped callable between taking and releasing the GIL.  The started
`sendJobToMainLoop` returns whether the main loop is initialized, enqueues the callable once if
it is and nothing if not; that result does not reach the caller of `dispatchToEventLoop`. -/
theorem dispatchToEventLoop_spec (PyCFunction_New : Nat → Nat → Nat) (loop : PyEventLoop)
    (closure dispatchable pyFunc : Nat) :
    dispatchToEventLoop PyCFunction_New loop closure dispatchable
        = (true, [Effect.gilEnsure,
            Effect.startNewThread (PyCFunction_New closure dispatchable), Effect.gilRelease])
    ∧ (sendJobToMainLoop loop pyFunc).1 = loop.initialized
    ∧ (sendJobToMainLoop loop pyFunc).2
        = if loop.initialized = true then
            [Effect.gilEnsure, Effect.loopEnqueue loop pyFunc, Effect.gilRelease]
          else [Effect.gilEnsure, Effect.gilRelease] := by
  refine ⟨rfl, ?_, ?_⟩ <;> unfold sendJobToMainLoop <;> cases h : loop.initialized
    <;> simp [h]

/-- C10: the code of `JobQueue::empty` throws for every dispatcher state, with or without
pending jobs; it never returns a boolean. -/
theorem empty_always_throws (q : JobQueue) :
    q.empty = Except.error "JobQueue::empty is not implemented\n" :=
  rfl

/-! ## Teardown -/

theorem cleanup_ok_cx (r r2 : Runtime) (h : cleanup r = Except.ok r2) :
    r2.cx = Ptr.dangling := by
  unfold cleanup JS_DestroyContext JS_ShutDown deleteGlobal at h
  cases hcx : r.cx <;> cases hup : r.engineUp <;> cases hg : r.global
    <;> simp [hcx, hup, hg, bind, Except.bind] at h
  all_goals (rw [← h])

theorem cleanup_of_not_live (r : Runtime) (h : r.cx ≠ Ptr.live) :
    cleanup r = Except.error Fault.destroyContext := by
  unfold cleanup JS_DestroyContext
  cases hcx : r.cx
  · rfl
  · exact absurd hcx h
  · rfl

/-- C9 as stated fails: after a successful module load the first run of `cleanup` performs the
three teardown effects and leaves `cx` dangling; the second run is not a run without effect
that ends in the same state, it calls `JS_DestroyContext` on the destroyed context. -/
theorem cleanup_twice_differs :
    cleanup Runtime.loaded
        = Except.ok ⟨Ptr.dangling, false, Ptr.dangling,
            [Teardown.destroyContext, Teardown.shutDown, Teardown.deleteGlobal],
            [ExitHandler.cleanup], true⟩
    ∧ (cleanup Runtime.loaded >>= cleanup) = Except.error Fault.destroyContext
    ∧ (cleanup Runtime.loaded >>= cleanup) ≠ cleanup Runtime.loaded :=
  ⟨rfl, rfl, fun h => Except.noConfusion h⟩

/-- C9 (amended): from a state with a live context, an initialized engine and a live global, one
run of `cleanup` performs destroy-context, shut-down, release-global in that order and leaves
both `cx` and `global` dangling.  From every state, the run after a completed run is not
defined: it calls `JS_DestroyContext` on the destroyed context.  Each successful
`PyInit_pythonmonkey` appends one registration of `cleanup` to the exit handlers. -/
theorem cleanup_spec (r : Runtime) (hcx : r.cx = Ptr.live) (hup : r.engineUp = true)
    (hg : r.global = Ptr.live) :
    cleanup r
        = Except.ok { r with
            cx := Ptr.dangling
            engineUp := false
            global := Ptr.dangling
            calls := r.calls
              ++ [Teardown.destroyContext, Teardown.shutDown, Teardown.deleteGlobal] }
    ∧ (cleanup r >>= cleanup) = Except.error Fault.destroyContext
    ∧ (∀ q q2 : Runtime, cleanup q = Except.ok q2 →
        cleanup q2 = Except.error Fault.destroyContext)
    ∧ (∀ q : Runtime,
        (PyInit_pythonmonkey true true true q).2.atExit = q.atExit ++ [ExitHandler.cleanup]) := by
  have h1 : cleanup r
      = Except.ok { r with
          cx := Ptr.dangling
          engineUp := false
          global := Ptr.dangling
          calls := r.calls
            ++ [Teardown.destroyContext, Teardown.shutDown, Teardown.deleteGlobal] } := by
    simp [cleanup, JS_DestroyContext, JS_ShutDown, deleteGlobal, hcx, hup, hg, bind,
      Except.bind]
  have h3 : ∀ q q2 : Runtime, cleanup q = Except.ok q2 →
      cleanup q2 = Except.error Fault.destroyContext := by
    intro q q2 hq
    apply cleanup_of_not_live
    rw [cleanup_ok_cx q q2 hq]
    decide
  refine ⟨h1, ?_, h3, fun q => rfl⟩
  rw [h1]
  exact h3 r _ h1

/-- Witness for C9: the runtime after a successful module load meets the three hypotheses; one
run succeeds and the next one faults. -/
theorem cleanup_spec_witness :
    Runtime.loaded.cx = Ptr.live ∧ Runtime.loaded.engineUp = true
    ∧ Runtime.loaded.global = Ptr.live
    ∧ (cleanup Runtime.loaded >>= cleanup) = Except.error Fault.destroyContext :=
  ⟨rfl, rfl, rfl, (cleanup_spec Runtime.loaded rfl rfl rfl).2.1⟩

end PythonMonkey
